import Mathlib

/-!
Verification development for the inlining size-impact measurement pipeline
of this repository (scripts generate_data.py and extract_features.py).

The Python sources are embedded shallowly: pure fragments become Lean
functions, the toolchain invocation is abstracted by its observable outcome,
machine integers become Nat, the Python float division of the impact formula
is embedded over the rationals, and the raising code paths return Except.
Source text is modelled as a list of characters. The two regular expressions
of modify_source_for_function are embedded as explicit scanning functions
whose backtracking order follows the regex engine: alternation tries the
left branch first, lazy groups try the shortest extension first, greedy
whitespace runs take the maximal run (the token following each whitespace
class in both patterns begins with a non-whitespace character, so the
maximal run is the unique viable split for any identifier target name).
-/

/-- Whitespace test matching the Python regex class backslash-s over ASCII text. -/
def isSpace (c : Char) : Bool :=
  c == ' ' || c == '\t' || c == '\n' || c == '\r' || c == '\x0b' || c == '\x0c'

/-- Splits off the maximal run of leading whitespace, the greedy reading of
the whitespace-star and whitespace-plus fragments of both patterns. -/
def takeWs : List Char → List Char × List Char
  | [] => ([], [])
  | c :: cs => if isSpace c then (c :: (takeWs cs).1, (takeWs cs).2) else ([], c :: cs)

/-- Consumes an exact literal prefix, as the escaped function name and the
fixed keywords of the patterns do. -/
def dropLit : List Char → List Char → Option (List Char)
  | [], s => some s
  | _ :: _, [] => none
  | p :: ps, c :: cs => if p = c then dropLit ps cs else none

/-- Tests whether the list starts with the given character. -/
def headIs (c : Char) : List Char → Bool
  | [] => false
  | d :: _ => d == c

/-- Lazy scan embedding the regex fragment: dot-star lazy, close paren,
whitespace star, open brace (with the DOTALL flag, so the lazy group accepts
every character). Returns the lazily matched interior, the whitespace run
before the brace, and the tail after the brace. When a close paren is not
followed by whitespace and an open brace, the lazy group is extended past it
and the scan continues, exactly as regex backtracking does. -/
def findParenBrace : List Char → Option (List Char × List Char × List Char)
  | [] => none
  | c :: cs =>
    if c = ')' ∧ headIs '\x7b' (takeWs cs).2 = true then
      some ([], (takeWs cs).1, ((takeWs cs).2).tail)
    else
      (findParenBrace cs).map (fun x => (c :: x.1, x.2.1, x.2.2))

/-- Matches at the head of s the fragment: keyword kw, whitespace plus, the
literal target name, whitespace star, open paren, dot-star lazy, close paren
(all of which form the captured signature group), then whitespace star and an
open brace. Returns the captured group, the whitespace run before the brace,
and the remainder after the brace. -/
def matchSigKw (kw name s : List Char) : Option (List Char × List Char × List Char) :=
  match dropLit kw s with
  | none => none
  | some s1 =>
    if (takeWs s1).1.isEmpty then none
    else
      match dropLit name (takeWs s1).2 with
      | none => none
      | some s3 =>
        if headIs '(' (takeWs s3).2 = true then
          match findParenBrace (((takeWs s3).2).tail) with
          | some x =>
            some (kw ++ (takeWs s1).1 ++ (name ++ ((takeWs s3).1 ++ '(' :: (x.1 ++ [')']))),
                  x.2.1, x.2.2)
          | none => none
        else none

/-- The regular-function pattern of modify_source_for_function, anchored at
the head of s: the keyword alternation tries void first, then int, in the
order written in the pattern. -/
def matchSigAt (name s : List Char) : Option (List Char × List Char × List Char) :=
  match matchSigKw ("void".toList) name s with
  | some r => some r
  | none => matchSigKw ("int".toList) name s

/-- Lazy scan for the template-header close: dot-star lazy, the greater-than
sign, whitespace plus, then the signature pattern followed by whitespace star
and an open brace. Returns the header interior, the header whitespace, the
signature group, the whitespace before the brace, and the remainder. -/
def findGtSig (name : List Char) : List Char → Option (List Char × List Char × List Char × List Char × List Char)
  | [] => none
  | c :: cs =>
    if c = '>' ∧ (takeWs cs).1.isEmpty = false then
      match matchSigAt name (takeWs cs).2 with
      | some x => some ([], (takeWs cs).1, x.1, x.2.1, x.2.2)
      | none => (findGtSig name cs).map (fun y => (c :: y.1, y.2))
    else
      (findGtSig name cs).map (fun y => (c :: y.1, y.2))

/-- The template pattern of modify_source_for_function, anchored at the head
of s: group one is the template header (the fixed prefix, an angle-bracket
block, trailing whitespace), group two is the signature; the match ends with
whitespace star and an open brace. Returns group one, group two, the
whitespace before the brace, and the remainder after the brace. -/
def matchTemplAt (name s : List Char) : Option (List Char × List Char × List Char × List Char) :=
  match dropLit ("template<".toList) s with
  | none => none
  | some s1 =>
    (findGtSig name s1).map (fun y =>
      ("template<".toList ++ y.1 ++ '>' :: y.2.1, y.2.2.1, y.2.2.2.1, y.2.2.2.2))

/-- Leftmost search for the regular pattern, as re.subn with count one does:
start positions are tried left to right and the first matching one wins.
Returns the unmatched text before the match site together with the match
parts. -/
def findMatchSig (name : List Char) : List Char → Option (List Char × List Char × List Char × List Char)
  | [] => (matchSigAt name []).map (fun x => (([] : List Char), x.1, x.2.1, x.2.2))
  | c :: cs =>
    match matchSigAt name (c :: cs) with
    | some x => some ([], x.1, x.2.1, x.2.2)
    | none => (findMatchSig name cs).map (fun y => (c :: y.1, y.2))

/-- Leftmost search for the template pattern, as re.subn with count one does. -/
def findMatchTempl (name : List Char) : List Char → Option (List Char × List Char × List Char × List Char × List Char)
  | [] => (matchTemplAt name []).map (fun x => (([] : List Char), x.1, x.2.1, x.2.2.1, x.2.2.2))
  | c :: cs =>
    match matchTemplAt name (c :: cs) with
    | some x => some ([], x.1, x.2.1, x.2.2.1, x.2.2.2)
    | none => (findMatchTempl name cs).map (fun y => (c :: y.1, y.2))

/-- The message of the RuntimeError raised when neither pattern matches. -/
def mutationErrorMsg (func_name : List Char) : List Char :=
  "Could not find function or template ".toList ++
    '\x27' :: (func_name ++ '\x27' :: " to modify.".toList)

/-- Shallow embedding of modify_source_for_function (generate_data.py lines
51 to 78). The template pattern is tried first with a single leftmost
substitution; if it matches nowhere, the regular pattern is tried; if neither
matches, the function raises. The replacement for the template shape is group
one, a space, the attribute, a space, group two, a space, an open brace; for
the regular shape it is the attribute, a space, the captured group, a space,
an open brace. -/
def modify_source_for_function (original_content func_name attrText : List Char) :
    Except (List Char) (List Char) :=
  match findMatchTempl func_name original_content with
  | some y =>
    Except.ok (y.1 ++ (y.2.1 ++ ' ' :: (attrText ++ ' ' :: (y.2.2.1 ++ ' ' :: '\x7b' :: y.2.2.2.2))))
  | none =>
    match findMatchSig func_name original_content with
    | some x =>
      Except.ok (x.1 ++ (attrText ++ ' ' :: (x.2.1 ++ ' ' :: '\x7b' :: x.2.2.2)))
    | none => Except.error (mutationErrorMsg func_name)

/-- The libclang cursor kinds that the scripts inspect, together with enough
further statement kinds to exercise the statement classification. -/
inductive CursorKind where
  | FUNCTION_DECL
  | FUNCTION_TEMPLATE
  | CXX_METHOD
  | CLASS_DECL
  | STRUCT_DECL
  | PARM_DECL
  | VAR_DECL
  | COMPOUND_STMT
  | IF_STMT
  | FOR_STMT
  | WHILE_STMT
  | DO_STMT
  | SWITCH_STMT
  | CASE_STMT
  | DEFAULT_STMT
  | RETURN_STMT
  | DECL_STMT
  | BREAK_STMT
  | CONTINUE_STMT
  | NULL_STMT
  | CONDITIONAL_OPERATOR
  | CALL_EXPR
  | BINARY_OPERATOR
  | DECL_REF_EXPR
  | INTEGER_LITERAL
  | TRANSLATION_UNIT
deriving DecidableEq, Repr

/-- The libclang statement category: true exactly for the statement kinds,
false for declarations, expressions and the translation unit, mirroring the
kind ranges that CursorKind.is_statement tests in libclang. -/
def CursorKind.is_statement : CursorKind → Bool
  | .COMPOUND_STMT => true
  | .IF_STMT => true
  | .FOR_STMT => true
  | .WHILE_STMT => true
  | .DO_STMT => true
  | .SWITCH_STMT => true
  | .CASE_STMT => true
  | .DEFAULT_STMT => true
  | .RETURN_STMT => true
  | .DECL_STMT => true
  | .BREAK_STMT => true
  | .CONTINUE_STMT => true
  | .NULL_STMT => true
  | _ => false

/-- A byte-offset source range, as cursor extents expose it. -/
structure SourceExtent where
  start : Nat
  stop : Nat
deriving DecidableEq, Repr

/-- A parsed AST node: kind, spelling, the textual spelling of the result
type (meaningful on function nodes), the byte extent and the child nodes. -/
inductive Cursor where
  | node (kind : CursorKind) (spelling : String) (result_type : String)
      (extent : SourceExtent) (children : List Cursor)
deriving Repr

/-- The kind of a cursor. -/
def Cursor.kind : Cursor → CursorKind
  | .node k _ _ _ _ => k

/-- The spelling of a cursor. -/
def Cursor.spelling : Cursor → String
  | .node _ s _ _ _ => s

/-- The spelling of the result type of a cursor. -/
def Cursor.result_type : Cursor → String
  | .node _ _ rt _ _ => rt

/-- The byte extent of a cursor. -/
def Cursor.extent : Cursor → SourceExtent
  | .node _ _ _ e _ => e

/-- The child cursors of a cursor. -/
def Cursor.children : Cursor → List Cursor
  | .node _ _ _ _ cs => cs

/-- The formal-parameter cursors of a function cursor; libclang exposes them
through get_arguments, which yields the parameter declarations in order. -/
def Cursor.get_arguments (c : Cursor) : List Cursor :=
  c.children.filter (fun ch => ch.kind == CursorKind.PARM_DECL)

mutual

/-- Pre-order walk of the subtree rooted at a cursor, the cursor itself
first, as walk_preorder of the cindex binding yields it. -/
def walk_preorder : Cursor → List Cursor
  | .node k s rt e cs => .node k s rt e cs :: walkForest cs

/-- Pre-order walk of a list of sibling subtrees, left to right. -/
def walkForest : List Cursor → List Cursor
  | [] => []
  | c :: cs => walk_preorder c ++ walkForest cs

end

/-- A parsed translation unit: its root cursor and the extents of its
lexical tokens. -/
structure TranslationUnit where
  root : Cursor
  tokens : List SourceExtent

/-- The tokens of the translation unit lying within the given extent, as
get_tokens of the cindex binding yields for a range. -/
def TranslationUnit.get_tokens (tu : TranslationUnit) (e : SourceExtent) : List SourceExtent :=
  tu.tokens.filter (fun t => decide (e.start ≤ t.start ∧ t.stop ≤ e.stop))

/-- The kinds whose nodes increment cyclomatic complexity, exactly the list
written in get_features (extract_features.py lines 71 to 75). -/
def complexityKinds : List CursorKind :=
  [.IF_STMT, .FOR_STMT, .WHILE_STMT, .CASE_STMT, .CONDITIONAL_OPERATOR]

/-- The primitive type spellings against which the return type is tested
(extract_features.py line 57). -/
def simple_types : List String :=
  ["void", "int", "float", "double", "char", "bool", "short", "long"]

/-- The per-node extent filter of the feature loop: a node is considered
only when its extent lies fully inside the function extent. -/
def inExtentB (fs fe : Nat) (n : Cursor) : Bool :=
  decide (fs ≤ n.extent.start ∧ n.extent.stop ≤ fe)

/-- One iteration of the feature loop of get_features: the accumulator
carries complexity, local-variable count and body-statement count; a node
outside the function extent is skipped, otherwise each of the three
classifications increments its counter. -/
def featureStep (fs fe : Nat) (acc : Nat × Nat × Nat) (node : Cursor) : Nat × Nat × Nat :=
  if ¬ (fs ≤ node.extent.start ∧ node.extent.stop ≤ fe) then acc
  else
    ((if node.kind ∈ complexityKinds then acc.1 + 1 else acc.1),
     (if node.kind = CursorKind.VAR_DECL then acc.2.1 + 1 else acc.2.1),
     (if node.kind.is_statement = true ∧ node.kind ≠ CursorKind.COMPOUND_STMT
      then acc.2.2 + 1 else acc.2.2))

/-- The feature record returned by get_features; is_complex_return carries
the zero-or-one encoding used by the script. -/
structure FeatureSet where
  cyclomatic_complexity : Nat
  parameter_count : Nat
  local_variable_count : Nat
  body_size_stmts : Nat
  token_count : Nat
  is_complex_return : Nat
deriving DecidableEq, Repr

/-- Shallow embedding of get_features (extract_features.py lines 42 to 93):
token count over the function extent, the complex-return test by substring
containment of the primitive spellings, parameter count, and the pre-order
loop over the subtree with the extent filter, folded from the initial
counters one, zero, zero. -/
def get_features (func_cursor : Cursor) (tu : TranslationUnit) : FeatureSet :=
  let token_count := (tu.get_tokens func_cursor.extent).length
  let return_type := func_cursor.result_type
  let is_complex_return : Nat :=
    if ¬ (simple_types.any (fun st => decide (st.toList <:+: return_type.toList)) = true)
    then 1 else 0
  let parameter_count := (func_cursor.get_arguments).length
  let fs := func_cursor.extent.start
  let fe := func_cursor.extent.stop
  let counts := (walk_preorder func_cursor).foldl (featureStep fs fe) (1, 0, 0)
  { cyclomatic_complexity := counts.1,
    parameter_count := parameter_count,
    local_variable_count := counts.2.1,
    body_size_stmts := counts.2.2,
    token_count := token_count,
    is_complex_return := is_complex_return }

/-- The number of decision-point nodes lying within the function extent:
the nodes of the pre-order walk that pass the extent filter and whose kind
is in the complexity list. -/
def decisionPointCount (f : Cursor) : Nat :=
  (walk_preorder f).countP
    (fun n => inExtentB f.extent.start f.extent.stop n && decide (n.kind ∈ complexityKinds))

/-- The number of statement nodes within the function extent that are not
compound statements, the classification actually applied by the loop. -/
def nonCompoundStmtCount (f : Cursor) : Nat :=
  (walk_preorder f).countP
    (fun n => inExtentB f.extent.start f.extent.stop n &&
      (n.kind.is_statement && decide (n.kind ≠ CursorKind.COMPOUND_STMT)))

/-- Modelled from the spec: the claim C5 reading of the body-size count,
namely every statement node within the function extent except the single
top-level compound wrapper of the body (nested compound statements still
counted). Stated as the number of in-extent statement nodes minus one for
the wrapper. -/
def specBodyStmtCount (f : Cursor) : Nat :=
  ((walk_preorder f).countP
    (fun n => inExtentB f.extent.start f.extent.stop n && n.kind.is_statement)) - 1

/-- The predicate of the unqualified search of find_function_cursor: a
function or function-template child whose spelling equals the target. -/
def isTargetDecl (name : String) (child : Cursor) : Bool :=
  decide ((child.kind = CursorKind.FUNCTION_DECL ∨ child.kind = CursorKind.FUNCTION_TEMPLATE)
    ∧ child.spelling = name)

/-- Splits a name at the first occurrence of the double-colon scope
separator: the text before it and the text after it, or nothing when the
separator does not occur. This renders both the membership test of the
separator in the name and element zero of the Python split. -/
def splitFirstScope : List Char → Option (List Char × List Char)
  | ':' :: ':' :: rest => some ([], rest)
  | c :: cs => (splitFirstScope cs).map (fun p => (c :: p.1, p.2))
  | [] => none

/-- Element one of the Python split of the name at the scope separator: the
segment after the first separator, cut at the next separator when one
occurs. -/
def scopeMethodPiece (rest : List Char) : List Char :=
  match splitFirstScope rest with
  | some q => q.1
  | none => rest

/-- The per-child step of the qualified search of find_function_cursor: on
a class or struct child whose spelling is the class piece, the first method
child whose spelling is the method piece; on any other child, nothing. -/
def methodLookup (className methodName : List Char) (child : Cursor) : Option Cursor :=
  if (child.kind = CursorKind.CLASS_DECL ∨ child.kind = CursorKind.STRUCT_DECL)
      ∧ child.spelling.toList = className then
    child.children.find?
      (fun m => decide (m.kind = CursorKind.CXX_METHOD ∧ m.spelling.toList = methodName))
  else none

/-- Shallow embedding of find_function_cursor (extract_features.py lines 96
to 114). A name containing the scope separator is split; pieces zero and one
select the class and the method, searched among the immediate children and
grandchildren; the loop over class children continues past a matching class
without a matching method, as the Python loop does. Otherwise only the
immediate children of the given cursor are searched for a function or
function-template declaration with the exact spelling, the first match
winning. Every miss yields none. -/
def find_function_cursor (cursor : Cursor) (target_func_name : String) : Option Cursor :=
  match splitFirstScope target_func_name.toList with
  | some p =>
    cursor.children.findSome? (methodLookup p.1 (scopeMethodPiece p.2))
  | none =>
    cursor.children.find? (isTargetDecl target_func_name)

/-- The compiler binary named by the configuration of generate_data.py. -/
def COMPILER : String := "clang++"

/-- The argument record of a subprocess.run invocation, keeping exactly the
named arguments the probe passes; a missing timeout argument is the Python
default none, meaning the call waits without bound. -/
structure RunSpec where
  command : List String
  check : Bool
  capture_output : Bool
  text : Bool
  timeout : Option Nat
deriving DecidableEq, Repr

/-- The subprocess.run invocation made by compile_and_get_size
(generate_data.py lines 37 to 43): compile-only at fixed dialect and
optimization level, check set, output captured, and no timeout argument. -/
def probeRunArgs (source_file output_path : String) : RunSpec :=
  { command := [COMPILER, "-std=c++17", "-O2", "-c", source_file, "-o", output_path],
    check := true,
    capture_output := true,
    text := true,
    timeout := none }

/-- Shallow embedding of compile_and_get_size (generate_data.py lines 28 to
48), abstracting the toolchain invocation by its observable outcome: the
process exit code and the byte size of the object file it would produce.
With check set, a non-zero exit raises CalledProcessError, which the except
clause converts to a returned none; a zero exit returns the object size. -/
def compile_and_get_size (exitCode : Nat) (objSize : Nat) : Option Nat :=
  if exitCode = 0 then some objSize else none

/-- The record appended per target by the impact step of main. -/
structure ImpactRecord where
  function_name : String
  file_name : String
  size_increase_percent : ℚ
deriving DecidableEq, Repr

/-- Shallow embedding of the impact step of main (generate_data.py lines 121
to 131): a record is appended only when both probe sizes are present and the
baseline size is positive, and its percentage is the float expression
embedded over the rationals. -/
def computeImpactRecord (func filename : String)
    (size_no_inline size_always_inline : Option Nat) : Option ImpactRecord :=
  match size_no_inline, size_always_inline with
  | some n, some a =>
    if 0 < n then
      some { function_name := func,
             file_name := filename,
             size_increase_percent := (((a : ℚ) - (n : ℚ)) / (n : ℚ)) * 100 }
    else none
  | _, _ => none

/-- A function node containing exactly one if statement and one for loop and
no other decision points: the testable example named by the spec. -/
def exampleIfForFunc : Cursor :=
  .node .FUNCTION_DECL "f" "void" ⟨0, 100⟩
    [.node .PARM_DECL "a" "int" ⟨5, 9⟩ [],
     .node .COMPOUND_STMT "" "" ⟨10, 100⟩
       [.node .IF_STMT "" "" ⟨12, 40⟩
          [.node .BINARY_OPERATOR "" "" ⟨15, 20⟩ [],
           .node .RETURN_STMT "" "" ⟨25, 35⟩ []],
        .node .FOR_STMT "" "" ⟨45, 90⟩
          [.node .DECL_STMT "" "" ⟨47, 55⟩
             [.node .VAR_DECL "i" "int" ⟨48, 54⟩ []]]]]

/-- A translation unit owning the example function. -/
def exampleTU : TranslationUnit := ⟨exampleIfForFunc, []⟩

/-- A function node whose body wraps a nested compound statement around a
return statement: the body contains two statement nodes besides the
top-level wrapper, one of which is itself a compound statement. -/
def nestedCompoundFunc : Cursor :=
  .node .FUNCTION_DECL "g" "int" ⟨0, 50⟩
    [.node .COMPOUND_STMT "" "" ⟨5, 50⟩
       [.node .COMPOUND_STMT "" "" ⟨10, 45⟩
          [.node .RETURN_STMT "" "" ⟨15, 30⟩ []]]]

/-- A translation unit owning the nested-compound function. -/
def nestedTU : TranslationUnit := ⟨nestedCompoundFunc, []⟩

/-- A root whose only child is a function named g, used to exercise the miss
path of the locator. -/
def exampleRootG : Cursor :=
  .node .TRANSLATION_UNIT "" "" ⟨0, 200⟩
    [.node .FUNCTION_DECL "g" "void" ⟨0, 40⟩ []]

/-- Modelled from the spec: the claim C4 taxonomy of decision points, namely
a conditional branch, a loop (for, while, or do-while), a switch-case
label, or a ternary/conditional expression. The do-while statement kind is
classified as a loop here, although the list the code tests omits it. -/
def claimDecisionKinds : List CursorKind :=
  [.IF_STMT, .FOR_STMT, .WHILE_STMT, .DO_STMT, .CASE_STMT, .CONDITIONAL_OPERATOR]

/-- Modelled from the spec: the number of decision-point nodes within the
function extent under the claim C4 taxonomy. -/
def claimDecisionPointCount (f : Cursor) : Nat :=
  (walk_preorder f).countP
    (fun n => inExtentB f.extent.start f.extent.stop n && decide (n.kind ∈ claimDecisionKinds))

/-- A function node containing exactly one do-while loop and no other
decision point of any kind. -/
def doWhileFunc : Cursor :=
  .node .FUNCTION_DECL "h" "void" ⟨0, 60⟩
    [.node .COMPOUND_STMT "" "" ⟨8, 60⟩
       [.node .DO_STMT "" "" ⟨12, 55⟩
          [.node .COMPOUND_STMT "" "" ⟨15, 40⟩
             [.node .RETURN_STMT "" "" ⟨20, 35⟩ []],
           .node .BINARY_OPERATOR "" "" ⟨45, 52⟩ []]]]

/-- A translation unit owning the do-while function. -/
def doWhileTU : TranslationUnit := ⟨doWhileFunc, []⟩

theorem takeWs_eq (s : List Char) : (takeWs s).1 ++ (takeWs s).2 = s := by
  induction s with
  | nil => rfl
  | cons c cs ih =>
    by_cases h : isSpace c = true
    · simp [takeWs, h, ih]
    · simp [takeWs, h]

theorem takeWs_ws (s : List Char) : (takeWs s).1.all isSpace = true := by
  induction s with
  | nil => rfl
  | cons c cs ih =>
    by_cases h : isSpace c = true
    · simp [takeWs, h, ih]
    · simp [takeWs, h]

theorem dropLit_eq : ∀ (p s r : List Char), dropLit p s = some r → s = p ++ r := by
  intro p
  induction p with
  | nil =>
    intro s r h
    simp [dropLit] at h
    simp [h]
  | cons a ps ih =>
    intro s r h
    cases s with
    | nil => simp [dropLit] at h
    | cons c cs =>
      by_cases hac : a = c
      · subst hac
        simp [dropLit] at h
        have hcs := ih cs r h
        simp [hcs]
      · simp [dropLit, hac] at h

theorem headIs_cons {c : Char} {l : List Char} (h : headIs c l = true) : l = c :: l.tail := by
  cases l with
  | nil => simp [headIs] at h
  | cons d ds =>
    simp [headIs] at h
    simp [h]

theorem findParenBrace_eq : ∀ (s i w r : List Char),
    findParenBrace s = some (i, w, r) →
    s = i ++ ')' :: (w ++ '\x7b' :: r) ∧ w.all isSpace = true := by
  intro s
  induction s with
  | nil => intro i w r h; simp [findParenBrace] at h
  | cons c cs ih =>
    intro i w r h
    by_cases hcond : c = ')' ∧ headIs '\x7b' (takeWs cs).2 = true
    · rw [findParenBrace, if_pos hcond] at h
      obtain ⟨hc, hh⟩ := hcond
      simp only [Option.some.injEq, Prod.mk.injEq] at h
      obtain ⟨hi, hw, hr⟩ := h
      subst hi; subst hw; subst hr; subst hc
      refine ⟨?_, takeWs_ws cs⟩
      have h2 := headIs_cons hh
      have h1 := takeWs_eq cs
      rw [h2] at h1
      simp only [List.nil_append]
      conv_lhs => rw [← h1]
    · rw [findParenBrace, if_neg hcond] at h
      cases hfp : findParenBrace cs with
      | none => rw [hfp] at h; simp [Option.map_none'] at h
      | some x =>
        rw [hfp] at h
        simp only [Option.map_some', Option.some.injEq, Prod.mk.injEq] at h
        obtain ⟨hi, hw, hr⟩ := h
        obtain ⟨he, hws⟩ := ih x.1 x.2.1 x.2.2 (by rw [hfp])
        subst hi; subst hw; subst hr
        constructor
        · rw [List.cons_append, ← he]
        · exact hws

theorem matchSigKw_eq (kw name s g w r : List Char)
    (h : matchSigKw kw name s = some (g, w, r)) :
    s = g ++ (w ++ '\x7b' :: r) ∧ w.all isSpace = true := by
  unfold matchSigKw at h
  split at h
  · exact absurd h (by simp)
  · rename_i s1 hkw
    split at h
    · exact absurd h (by simp)
    · rename_i hne
      split at h
      · exact absurd h (by simp)
      · rename_i s3 hname
        split at h
        · rename_i hpar
          split at h
          · rename_i x hfp
            simp only [Option.some.injEq, Prod.mk.injEq] at h
            obtain ⟨hg, hw, hr⟩ := h
            subst hg; subst hw; subst hr
            obtain ⟨e6, hws⟩ := findParenBrace_eq _ _ _ _ hfp
            refine ⟨?_, hws⟩
            have A : s = kw ++ s1 := dropLit_eq _ _ _ hkw
            rw [← takeWs_eq s1] at A
            have e3 : (takeWs s1).2 = name ++ s3 := dropLit_eq _ _ _ hname
            rw [e3] at A
            rw [← takeWs_eq s3] at A
            have e5 := headIs_cons hpar
            rw [e5] at A
            rw [e6] at A
            rw [A]
            simp [List.append_assoc]
          · exact absurd h (by simp)
        · exact absurd h (by simp)

theorem matchSigAt_eq (name s g w r : List Char)
    (h : matchSigAt name s = some (g, w, r)) :
    s = g ++ (w ++ '\x7b' :: r) ∧ w.all isSpace = true := by
  unfold matchSigAt at h
  split at h
  · rename_i x hv
    simp only [Option.some.injEq] at h
    subst h
    exact matchSigKw_eq _ _ _ _ _ _ hv
  · exact matchSigKw_eq _ _ _ _ _ _ h

theorem findGtSig_eq (name : List Char) : ∀ (s i w1 g w r : List Char),
    findGtSig name s = some (i, w1, g, w, r) →
    s = i ++ '>' :: (w1 ++ (g ++ (w ++ '\x7b' :: r))) ∧ w.all isSpace = true := by
  intro s
  induction s with
  | nil => intro i w1 g w r h; simp [findGtSig] at h
  | cons c cs ih =>
    intro i w1 g w r h
    rw [findGtSig] at h
    split at h
    · rename_i hcond
      obtain ⟨hc, hne⟩ := hcond
      split at h
      · rename_i x hm
        simp only [Option.some.injEq, Prod.mk.injEq] at h
        obtain ⟨hi, hw1, hg, hw, hr⟩ := h
        subst hi; subst hw1; subst hg; subst hw; subst hr; subst hc
        obtain ⟨e1, hws⟩ := matchSigAt_eq _ _ _ _ _ hm
        refine ⟨?_, hws⟩
        have h1 := takeWs_eq cs
        rw [e1] at h1
        simp only [List.nil_append]
        conv_lhs => rw [← h1]
      · cases hf : findGtSig name cs with
        | none => rw [hf] at h; simp [Option.map_none'] at h
        | some z =>
          obtain ⟨z1, z2, z3, z4, z5⟩ := z
          rw [hf] at h
          simp only [Option.map_some', Option.some.injEq, Prod.mk.injEq] at h
          obtain ⟨hi, hw1, hg, hw, hr⟩ := h
          obtain ⟨he, hws⟩ := ih z1 z2 z3 z4 z5 hf
          subst hi; subst hw1; subst hg; subst hw; subst hr
          exact ⟨by rw [List.cons_append, ← he], hws⟩
    · cases hf : findGtSig name cs with
      | none => rw [hf] at h; simp [Option.map_none'] at h
      | some z =>
        obtain ⟨z1, z2, z3, z4, z5⟩ := z
        rw [hf] at h
        simp only [Option.map_some', Option.some.injEq, Prod.mk.injEq] at h
        obtain ⟨hi, hw1, hg, hw, hr⟩ := h
        obtain ⟨he, hws⟩ := ih z1 z2 z3 z4 z5 hf
        subst hi; subst hw1; subst hg; subst hw; subst hr
        exact ⟨by rw [List.cons_append, ← he], hws⟩

theorem matchTemplAt_eq (name s g1 g2 w r : List Char)
    (h : matchTemplAt name s = some (g1, g2, w, r)) :
    s = g1 ++ (g2 ++ (w ++ '\x7b' :: r)) ∧ w.all isSpace = true := by
  unfold matchTemplAt at h
  split at h
  · exact absurd h (by simp)
  · rename_i s1 hkw
    cases hf : findGtSig name s1 with
    | none => rw [hf] at h; simp [Option.map_none'] at h
    | some y =>
      rw [hf] at h
      simp only [Option.map_some', Option.some.injEq, Prod.mk.injEq] at h
      obtain ⟨hg1, hg2, hw, hr⟩ := h
      obtain ⟨he, hws⟩ := findGtSig_eq _ _ _ _ _ _ _ (by rw [hf])
      subst hg1; subst hg2; subst hw; subst hr
      refine ⟨?_, hws⟩
      have A : s = ("template<".toList) ++ s1 := dropLit_eq _ _ _ hkw
      rw [he] at A
      rw [A]
      simp [List.append_assoc]

theorem findMatchSig_eq (name : List Char) : ∀ (s pre g w r : List Char),
    findMatchSig name s = some (pre, g, w, r) →
    s = pre ++ (g ++ (w ++ '\x7b' :: r)) ∧ w.all isSpace = true ∧
      (∀ k, k < pre.length → matchSigAt name (s.drop k) = none) := by
  intro s
  induction s with
  | nil =>
    intro pre g w r h
    cases hm : matchSigAt name [] with
    | none => rw [findMatchSig, hm] at h; simp [Option.map_none'] at h
    | some x =>
      rw [findMatchSig, hm] at h
      simp only [Option.map_some', Option.some.injEq, Prod.mk.injEq] at h
      obtain ⟨hp, hg, hw, hr⟩ := h
      obtain ⟨he, hws⟩ := matchSigAt_eq _ _ _ _ _ hm
      subst hp; subst hg; subst hw; subst hr
      refine ⟨by simp only [List.nil_append]; exact he, hws, ?_⟩
      intro k hk
      simp at hk
  | cons c cs ih =>
    intro pre g w r h
    rw [findMatchSig] at h
    split at h
    · rename_i x hm
      simp only [Option.some.injEq, Prod.mk.injEq] at h
      obtain ⟨hp, hg, hw, hr⟩ := h
      obtain ⟨he, hws⟩ := matchSigAt_eq _ _ _ _ _ hm
      subst hp; subst hg; subst hw; subst hr
      refine ⟨by simp only [List.nil_append]; exact he, hws, ?_⟩
      intro k hk
      simp at hk
    · rename_i hm
      cases hf : findMatchSig name cs with
      | none => rw [hf] at h; simp [Option.map_none'] at h
      | some z =>
        obtain ⟨z1, z2, z3, z4⟩ := z
        rw [hf] at h
        simp only [Option.map_some', Option.some.injEq, Prod.mk.injEq] at h
        obtain ⟨hp, hg, hw, hr⟩ := h
        obtain ⟨he, hws, hleft⟩ := ih z1 z2 z3 z4 hf
        subst hp; subst hg; subst hw; subst hr
        refine ⟨by rw [List.cons_append, ← he], hws, ?_⟩
        intro k hk
        cases k with
        | zero => simpa using hm
        | succ j =>
          simp only [List.length_cons, Nat.succ_lt_succ_iff] at hk
          simpa using hleft j hk

theorem findMatchTempl_eq (name : List Char) : ∀ (s pre g1 g2 w r : List Char),
    findMatchTempl name s = some (pre, g1, g2, w, r) →
    s = pre ++ (g1 ++ (g2 ++ (w ++ '\x7b' :: r))) ∧ w.all isSpace = true ∧
      (∀ k, k < pre.length → matchTemplAt name (s.drop k) = none) := by
  intro s
  induction s with
  | nil =>
    intro pre g1 g2 w r h
    cases hm : matchTemplAt name [] with
    | none => rw [findMatchTempl, hm] at h; simp [Option.map_none'] at h
    | some x =>
      rw [findMatchTempl, hm] at h
      simp only [Option.map_some', Option.some.injEq, Prod.mk.injEq] at h
      obtain ⟨hp, hg1, hg2, hw, hr⟩ := h
      obtain ⟨he, hws⟩ := matchTemplAt_eq _ _ _ _ _ _ hm
      subst hp; subst hg1; subst hg2; subst hw; subst hr
      refine ⟨by simp only [List.nil_append]; exact he, hws, ?_⟩
      intro k hk
      simp at hk
  | cons c cs ih =>
    intro pre g1 g2 w r h
    rw [findMatchTempl] at h
    split at h
    · rename_i x hm
      simp only [Option.some.injEq, Prod.mk.injEq] at h
      obtain ⟨hp, hg1, hg2, hw, hr⟩ := h
      obtain ⟨he, hws⟩ := matchTemplAt_eq _ _ _ _ _ _ hm
      subst hp; subst hg1; subst hg2; subst hw; subst hr
      refine ⟨by simp only [List.nil_append]; exact he, hws, ?_⟩
      intro k hk
      simp at hk
    · rename_i hm
      cases hf : findMatchTempl name cs with
      | none => rw [hf] at h; simp [Option.map_none'] at h
      | some z =>
        obtain ⟨z1, z2, z3, z4, z5⟩ := z
        rw [hf] at h
        simp only [Option.map_some', Option.some.injEq, Prod.mk.injEq] at h
        obtain ⟨hp, hg1, hg2, hw, hr⟩ := h
        obtain ⟨he, hws, hleft⟩ := ih z1 z2 z3 z4 z5 hf
        subst hp; subst hg1; subst hg2; subst hw; subst hr
        refine ⟨by rw [List.cons_append, ← he], hws, ?_⟩
        intro k hk
        cases k with
        | zero => simpa using hm
        | succ j =>
          simp only [List.length_cons, Nat.succ_lt_succ_iff] at hk
          simpa using hleft j hk

/-- C3: for every source text and target function name for which neither the
template pattern nor the regular pattern matches anywhere in the text,
modify_source_for_function raises the RuntimeError naming the function; in
particular it never silently returns the unmodified source text. -/
theorem modify_not_found_raises (s name attrText : List Char)
    (h1 : findMatchTempl name s = none) (h2 : findMatchSig name s = none) :
    modify_source_for_function s name attrText = Except.error (mutationErrorMsg name) := by
  simp [modify_source_for_function, h1, h2]

/-- Witness for C3: on a source containing no function declaration at all,
the mutator returns the raising branch. -/
theorem modify_not_found_raises_witness :
    modify_source_for_function ("hello world".toList) ("f".toList) ("A".toList)
      = Except.error (mutationErrorMsg ("f".toList)) :=
  modify_not_found_raises _ _ _ (by rfl) (by rfl)

/-- C2: evaluation of the mutator on a source text in which the regular
pattern matches at two distinct sites. The call succeeds and silently alters
only the first occurrence, raising no error, even though the second site
still matches the pattern. This is the behavior of re.subn with count one
together with the guard that only tests count equal to zero. -/
theorem modify_two_matches_silently_alters_first :
    modify_source_for_function ("void f() \x7b\x7d void f() \x7b\x7d".toList) ("f".toList)
        ("__attribute__((noinline))".toList)
      = Except.ok ("__attribute__((noinline)) void f() \x7b\x7d void f() \x7b\x7d".toList)
    ∧ (matchSigAt ("f".toList)
        (List.drop 12 ("void f() \x7b\x7d void f() \x7b\x7d".toList))).isSome = true := by
  exact ⟨by rfl, by rfl⟩

/-- C10: frame property of the mutator. Whenever the call succeeds, the
source splits as an unmatched pre text, a matched declaration region ending
in whitespace and an open brace, and an untouched tail; the output keeps the
pre text and the tail character for character, and inside the region the only
change is the insertion of the directive (with its delimiting spaces) and the
normalization of the whitespace before the opening brace to a single space.
The pre text is leftmost: no earlier start position matches the pattern that
fired, so at most one site, the first, is ever altered even when the pattern
matches at several sites. -/
theorem modify_source_frame (s name attrText out : List Char)
    (h : modify_source_for_function s name attrText = Except.ok out) :
    (∃ pre g1 g2 w rest,
        s = pre ++ (g1 ++ (g2 ++ (w ++ '\x7b' :: rest))) ∧
        w.all isSpace = true ∧
        out = pre ++ (g1 ++ ' ' :: (attrText ++ ' ' :: (g2 ++ ' ' :: '\x7b' :: rest))) ∧
        (∀ k, k < pre.length → matchTemplAt name (List.drop k s) = none)) ∨
    (findMatchTempl name s = none ∧
      ∃ pre g w rest,
        s = pre ++ (g ++ (w ++ '\x7b' :: rest)) ∧
        w.all isSpace = true ∧
        out = pre ++ (attrText ++ ' ' :: (g ++ ' ' :: '\x7b' :: rest)) ∧
        (∀ k, k < pre.length → matchSigAt name (List.drop k s) = none)) := by
  unfold modify_source_for_function at h
  split at h
  · rename_i y hT
    obtain ⟨p, g1, g2, w, rest⟩ := y
    left
    obtain ⟨he, hws, hleft⟩ := findMatchTempl_eq _ _ _ _ _ _ _ hT
    simp only [Except.ok.injEq] at h
    exact ⟨p, g1, g2, w, rest, he, hws, h.symm, hleft⟩
  · rename_i hTn
    split at h
    · rename_i x hS
      obtain ⟨p, g, w, rest⟩ := x
      right
      obtain ⟨he, hws, hleft⟩ := findMatchSig_eq _ _ _ _ _ _ hS
      simp only [Except.ok.injEq] at h
      exact ⟨hTn, p, g, w, rest, he, hws, h.symm, hleft⟩
    · exact absurd h (by simp)

/-- Witness for C10 at a concrete successful regular-pattern mutation. -/
theorem modify_source_frame_witness :
    (∃ pre g1 g2 w rest,
        ("void f() \x7bx\x7d".toList) = pre ++ (g1 ++ (g2 ++ (w ++ '\x7b' :: rest))) ∧
        w.all isSpace = true ∧
        ("ATTR void f() \x7bx\x7d".toList)
          = pre ++ (g1 ++ ' ' :: (("ATTR".toList) ++ ' ' :: (g2 ++ ' ' :: '\x7b' :: rest))) ∧
        (∀ k, k < pre.length →
          matchTemplAt ("f".toList) (List.drop k ("void f() \x7bx\x7d".toList)) = none)) ∨
    (findMatchTempl ("f".toList) ("void f() \x7bx\x7d".toList) = none ∧
      ∃ pre g w rest,
        ("void f() \x7bx\x7d".toList) = pre ++ (g ++ (w ++ '\x7b' :: rest)) ∧
        w.all isSpace = true ∧
        ("ATTR void f() \x7bx\x7d".toList)
          = pre ++ (("ATTR".toList) ++ ' ' :: (g ++ ' ' :: '\x7b' :: rest)) ∧
        (∀ k, k < pre.length →
          matchSigAt ("f".toList) (List.drop k ("void f() \x7bx\x7d".toList)) = none)) :=
  modify_source_frame ("void f() \x7bx\x7d".toList) ("f".toList) ("ATTR".toList)
    ("ATTR void f() \x7bx\x7d".toList) (by rfl)

theorem featureStep_foldl (fs fe : Nat) : ∀ (l : List Cursor) (a b c : Nat),
    List.foldl (featureStep fs fe) (a, b, c) l =
      (a + List.countP (fun n => inExtentB fs fe n && decide (n.kind ∈ complexityKinds)) l,
       b + List.countP (fun n => inExtentB fs fe n && decide (n.kind = CursorKind.VAR_DECL)) l,
       c + List.countP (fun n => inExtentB fs fe n &&
             (n.kind.is_statement && decide (¬ n.kind = CursorKind.COMPOUND_STMT))) l) := by
  intro l
  induction l with
  | nil => intro a b c; simp
  | cons x xs ih =>
    intro a b c
    by_cases hin : fs ≤ x.extent.start ∧ x.extent.stop ≤ fe
    · have hx : inExtentB fs fe x = true := by simp [inExtentB, hin.1, hin.2]
      rw [List.foldl_cons, featureStep, if_neg (not_not_intro hin), ih]
      simp only [List.countP_cons, hx, Bool.true_and, Prod.mk.injEq]
      refine ⟨?_, ?_, ?_⟩
      · by_cases hc : x.kind ∈ complexityKinds <;> simp [hc] <;> omega
      · by_cases hc : x.kind = CursorKind.VAR_DECL <;> simp [hc] <;> omega
      · by_cases hs : x.kind.is_statement = true
        · by_cases hc : x.kind = CursorKind.COMPOUND_STMT <;> simp [hs, hc] <;> omega
        · simp [hs]
    · have hx : inExtentB fs fe x = false := by
        simp only [inExtentB, decide_eq_false_iff_not]
        exact hin
      rw [List.foldl_cons, featureStep, if_pos hin, ih]
      simp [List.countP_cons, hx]

theorem get_features_counts (f : Cursor) (tu : TranslationUnit) :
    (get_features f tu).cyclomatic_complexity = 1 + decisionPointCount f ∧
    (get_features f tu).body_size_stmts = nonCompoundStmtCount f := by
  constructor
  · show (List.foldl (featureStep f.extent.start f.extent.stop) (1, 0, 0) (walk_preorder f)).1
      = 1 + decisionPointCount f
    rw [featureStep_foldl]
    simp [decisionPointCount]
  · show (List.foldl (featureStep f.extent.start f.extent.stop) (1, 0, 0) (walk_preorder f)).2.2
      = nonCompoundStmtCount f
    rw [featureStep_foldl]
    simp [nonCompoundStmtCount]

/-- C4 counterexample: on a function containing exactly one do-while loop
and no other decision point, the script computes cyclomatic complexity one,
because the kind list the loop tests omits the do-while statement kind,
while the claim taxonomy, under which every loop is a decision point,
yields one plus one decision point, that is two. The two disagree,
refuting the claim as frozen. -/
theorem cyclomatic_do_while_counterexample :
    (get_features doWhileFunc doWhileTU).cyclomatic_complexity
      ≠ 1 + claimDecisionPointCount doWhileFunc := by
  have h1 : (get_features doWhileFunc doWhileTU).cyclomatic_complexity = 1 := by
    simp [doWhileFunc, doWhileTU, get_features, walk_preorder, walkForest,
      featureStep, TranslationUnit.get_tokens, Cursor.get_arguments, Cursor.extent,
      Cursor.kind, complexityKinds, CursorKind.is_statement]
  have h2 : claimDecisionPointCount doWhileFunc = 1 := by
    simp [doWhileFunc, claimDecisionPointCount, claimDecisionKinds, walk_preorder,
      walkForest, inExtentB, Cursor.extent, Cursor.kind]
  omega

/-- C4 amended: for every located function node, cyclomatic complexity
equals one plus the number of nodes within the function extent whose kind
is in the list the loop actually tests - if statement, for statement, while
statement, switch-case label, conditional operator; a do-while loop (or any
other kind outside that list) is not counted. Consequently the value is
always at least one, and on the concrete example with exactly one if
statement and one for loop and no other branches it evaluates to three. -/
theorem cyclomatic_complexity_amended :
    (∀ (f : Cursor) (tu : TranslationUnit),
        (get_features f tu).cyclomatic_complexity = 1 + decisionPointCount f ∧
        1 ≤ (get_features f tu).cyclomatic_complexity) ∧
    (get_features exampleIfForFunc exampleTU).cyclomatic_complexity = 3 := by
  constructor
  · intro f tu
    have h := (get_features_counts f tu).1
    exact ⟨h, by omega⟩
  · simp [exampleIfForFunc, exampleTU, get_features, walk_preorder, walkForest,
      featureStep, TranslationUnit.get_tokens, Cursor.get_arguments, Cursor.extent,
      Cursor.kind, complexityKinds, CursorKind.is_statement]

/-- C5 counterexample: on the function whose body wraps a nested compound
statement around a return statement, the script counts a single body
statement, because the loop excludes every compound statement; the claim
reading, which excludes only the single top-level wrapper and counts nested
compound statements, yields two. The two disagree, refuting the claim. -/
theorem body_size_nested_compound_counterexample :
    (get_features nestedCompoundFunc nestedTU).body_size_stmts
      ≠ specBodyStmtCount nestedCompoundFunc := by
  have h1 : (get_features nestedCompoundFunc nestedTU).body_size_stmts = 1 := by
    simp [nestedCompoundFunc, nestedTU, get_features, walk_preorder, walkForest,
      featureStep, TranslationUnit.get_tokens, Cursor.get_arguments, Cursor.extent,
      Cursor.kind, complexityKinds, CursorKind.is_statement]
  have h2 : specBodyStmtCount nestedCompoundFunc = 2 := by
    simp [nestedCompoundFunc, specBodyStmtCount, walk_preorder, walkForest,
      inExtentB, Cursor.extent, Cursor.kind, CursorKind.is_statement]
  omega

/-- C5 amended: body_size_stmts equals the number of statement nodes within
the function extent that are not compound statements: every compound
statement is excluded, nested ones included, not only the single top-level
wrapper of the body. -/
theorem body_size_stmts_amended (f : Cursor) (tu : TranslationUnit) :
    (get_features f tu).body_size_stmts = nonCompoundStmtCount f :=
  (get_features_counts f tu).2

/-- C8: feature extraction is deterministic: the embedding of get_features
is a pure function of the located cursor and the translation unit (the
Python body only reads the parsed tree), so running it twice on the same
located node and translation unit yields bit-identical feature sets. -/
theorem get_features_deterministic (f : Cursor) (tu : TranslationUnit) :
    get_features f tu = get_features f tu := rfl

/-- C9: when the target name is unqualified (it contains no scope
separator), the locator searches only the immediate children of the root for
a function or function-template declaration with exactly that spelling and
returns the first match; when no child matches, it returns none; and for a
qualified name whose class-and-method search finds nothing among children
and grandchildren, it also returns none - never an exception. -/
theorem find_function_cursor_spec (root : Cursor) (name : String) :
    (splitFirstScope name.toList = none →
        find_function_cursor root name = root.children.find? (isTargetDecl name)) ∧
    (splitFirstScope name.toList = none →
        (∀ c ∈ root.children, isTargetDecl name c = false) →
        find_function_cursor root name = none) ∧
    (∀ p, splitFirstScope name.toList = some p →
        (∀ c ∈ root.children, methodLookup p.1 (scopeMethodPiece p.2) c = none) →
        find_function_cursor root name = none) := by
  refine ⟨?_, ?_, ?_⟩
  · intro hu
    unfold find_function_cursor
    rw [hu]
  · intro hu hall
    unfold find_function_cursor
    rw [hu]
    exact List.find?_eq_none.mpr (fun c hc => by simp [hall c hc])
  · intro p hq hall
    unfold find_function_cursor
    rw [hq]
    exact List.findSome?_eq_none_iff.mpr hall

/-- Witness for C9 on a root holding one function named g and the target
name f: the name is unqualified, no child matches, and the locator returns
none. -/
theorem find_function_cursor_spec_witness :
    find_function_cursor exampleRootG "f" = none :=
  (find_function_cursor_spec exampleRootG "f").2.1 (by rfl)
    (by intro c hc; fin_cases hc <;> rfl)

/-- C6: for every toolchain outcome with a non-zero exit code, the probe
returns none: subprocess.run with check set raises CalledProcessError, the
except clause catches it and returns None, and no error escapes the call. -/
theorem compile_failure_returns_none (exitCode objSize : Nat) (h : exitCode ≠ 0) :
    compile_and_get_size exitCode objSize = none := by
  simp [compile_and_get_size, h]

/-- Witness for C6 at exit code one. -/
theorem compile_failure_returns_none_witness :
    compile_and_get_size 1 4096 = none :=
  compile_failure_returns_none 1 4096 (by decide)

/-- C7 counterexample: the claim that every toolchain invocation carries a
bounded timeout is false at a concrete invocation: the subprocess.run
argument record of the probe carries no timeout at all (the argument is
absent, that is, the Python default none). -/
theorem probe_timeout_counterexample :
    (probeRunArgs "a.cpp" "a.o").timeout = none := rfl

/-- C7 amended: no invocation of the probe carries a timeout: for every
source path and output path the subprocess.run argument record has timeout
none, so expiry handling never arises and a hung compile would block
without bound; only a non-zero exit is handled, by returning none. -/
theorem probe_no_timeout (source_file output_path : String) :
    (probeRunArgs source_file output_path).timeout = none := rfl

/-- C1: the impact step emits a record exactly when both probe sizes are
present and the baseline is positive; the emitted percentage is the exact
rational rendering of the float expression, computed as forced minus
baseline over baseline times one hundred; and a shrink (forced smaller than
baseline) is emitted as an ordinary record with a negative percentage, as
on the concrete sizes one hundred and fifty. -/
theorem impact_record_spec :
    (∀ (f fn : String) (sn sa : Option Nat),
        (computeImpactRecord f fn sn sa).isSome = true ↔
          ∃ n a, sn = some n ∧ sa = some a ∧ 0 < n) ∧
    (∀ (f fn : String) (n a : Nat), 0 < n →
        computeImpactRecord f fn (some n) (some a)
          = some ⟨f, fn, (((a : ℚ) - (n : ℚ)) / (n : ℚ)) * 100⟩) ∧
    (∀ f fn : String,
        computeImpactRecord f fn (some 100) (some 50) = some ⟨f, fn, -50⟩) := by
  refine ⟨?_, ?_, ?_⟩
  · intro f fn sn sa
    constructor
    · intro h
      match sn, sa with
      | some n, some a =>
        refine ⟨n, a, rfl, rfl, ?_⟩
        by_contra hn
        simp [computeImpactRecord, hn] at h
      | some n, none => simp [computeImpactRecord] at h
      | none, sa => simp [computeImpactRecord] at h
    · rintro ⟨n, a, rfl, rfl, hn⟩
      simp [computeImpactRecord, hn]
  · intro f fn n a hn
    simp [computeImpactRecord, hn]
  · intro f fn
    norm_num [computeImpactRecord]

/-- Witness for C1: on baseline two and forced one the guard passes and the
record carries the negative percentage minus fifty. -/
theorem impact_record_spec_witness :
    computeImpactRecord "f" "file.cpp" (some 2) (some 1)
      = some ⟨"f", "file.cpp", (((1 : ℚ) - (2 : ℚ)) / (2 : ℚ)) * 100⟩ :=
  impact_record_spec.2.1 "f" "file.cpp" 2 1 (by norm_num)
